import Mathlib

/-! Shallow embedding of the `multiversion` attribute macro's option parsing and
validation (multiversion-macros/src/multiversion.rs) and of its build script's
retpoline detection (multiversion-macros/build.rs). Rust strings are embedded as
Lean `String` where only whole-string comparison matters, and as `List Char`
where the code splits or strips them character-wise. Fallible Rust functions
returning `Result<T, syn::Error>` become `Except String T`, the `String` being
the error message. -/

namespace Multiversion

/-- Rust `str::split(sep)` over a character list: always returns at least one
piece; a separator at either end or two adjacent separators yield empty pieces. -/
def splitOnChar (sep : Char) : List Char → List (List Char)
  | [] => [[]]
  | c :: rest =>
    match splitOnChar sep rest with
    | [] => if c == sep then [[], []] else [[c]]
    | g :: gs => if c == sep then [] :: g :: gs else (c :: g) :: gs

/-- Rust `str::starts_with(pat)` over character lists: `startsWithL s p` is true
when `p` is an initial segment of `s`. -/
def startsWithL : List Char → List Char → Bool
  | _, [] => true
  | [], _ :: _ => false
  | c :: s, p :: ps => c == p && startsWithL s ps

/-- Whether the list repeats an element (used for the duplicate-capability check). -/
def has_dup : List (List Char) → Bool
  | [] => false
  | c :: rest => rest.contains c || has_dup rest

/-- `Target` from target.rs: an architecture tag plus the ordered required
feature names. -/
structure Target where
  architecture : String
  features : List String
deriving DecidableEq

/-- `Target::has_features_specified`: true iff the feature list is non-empty. -/
def Target.has_features_specified (t : Target) : Bool :=
  !t.features.isEmpty

/-- Modelled from the spec: the fixed, extensible architecture enumeration of
target.rs (absent from src/); it recognizes at least the architectures named in
`DEFAULT_TARGETS` and the commented-out preset rows. -/
def recognized_architectures : List String :=
  ["x86", "x86_64", "arm", "aarch64", "mips", "mips64", "powerpc", "powerpc64"]

/-- Modelled from the spec: `Target::parse` of target.rs (absent from src/).
Grammar `architecture ("+" capability)*`; it fails when the architecture is
unrecognized, when a capability name is empty or duplicated, or when zero
capabilities follow the architecture. -/
def Target.parse (s : String) : Except String Target :=
  match splitOnChar '+' s.data with
  | [] => Except.error "malformed target string"
  | arch :: caps =>
    if recognized_architectures.contains (String.mk arch) = false then
      Except.error "unknown architecture"
    else if caps.isEmpty then
      Except.error "expected at least one feature"
    else if caps.any (fun c => c.isEmpty) then
      Except.error "empty feature"
    else if has_dup caps then
      Except.error "duplicate feature"
    else
      Except.ok { architecture := String.mk arch, features := caps.map String.mk }

/-- The `DEFAULT_TARGETS` table of multiversion.rs: the strings substituted for
`targets = "simd"`, in source order (commented-out rows omitted, as in the source). -/
def DEFAULT_TARGETS : List String :=
  [ "x86_64+avx2+fma",
    "x86_64+sse4.2",
    "x86+avx2+fma",
    "x86+sse4.2",
    "x86+sse2",
    "aarch64+neon" ]

/-- Rust `Result::unwrap` on a parsed target: the source unwraps the parse of
each `DEFAULT_TARGETS` entry (a panic is impossible there; the junk value below
is never produced, as the preset theorem shows by computing the real result). -/
def unwrap_target (r : Except String Target) : Target :=
  match r with
  | Except.ok t => t
  | Except.error _ => { architecture := "", features := [] }

/-- The parsed form of `DEFAULT_TARGETS`, written out: two 64-bit x86 rows
(most capable first), three 32-bit x86 rows, then the 64-bit ARM row. -/
def default_target_table : List Target :=
  [ { architecture := "x86_64", features := ["avx2", "fma"] },
    { architecture := "x86_64", features := ["sse4.2"] },
    { architecture := "x86", features := ["avx2", "fma"] },
    { architecture := "x86", features := ["sse4.2"] },
    { architecture := "x86", features := ["sse2"] },
    { architecture := "aarch64", features := ["neon"] } ]

/-- The value following the `targets` option key: either a parenthesized,
comma-separated list of target strings, or a single literal string. -/
inductive TargetsArg where
  | paren : List String → TargetsArg
  | lit : String → TargetsArg
deriving DecidableEq

/-- `DispatchMethod` from dispatcher.rs (its variants are named in
multiversion.rs lines 92-98). -/
inductive DispatchMethod where
  | Default : DispatchMethod
  | Static : DispatchMethod
  | Direct : DispatchMethod
  | Indirect : DispatchMethod
deriving DecidableEq

/-- One meta item of the attribute token stream, as the `syn::meta::parser`
callback of multiversion.rs distinguishes them by path: the three recognized
option names with their values (an `attrs` value abstracted to the decoration
list it parses to), or an unrecognized option. -/
inductive MetaItem where
  | targetsOpt : TargetsArg → MetaItem
  | attrsOpt : List String → MetaItem
  | dispatcherOpt : String → MetaItem
  | unknownOpt : MetaItem
deriving DecidableEq

/-- `Punctuated::<Target, Comma>::parse_terminated`: parse the parenthesized
items left to right, each as a `Target`; the first failure aborts the list. -/
def parse_target_list : List String → Except String (List Target)
  | [] => Except.ok []
  | s :: rest =>
    match Target.parse s with
    | Except.error e => Except.error e
    | Except.ok t =>
      match parse_target_list rest with
      | Except.error e => Except.error e
      | Except.ok ts => Except.ok (t :: ts)

/-- `parse_targets` of multiversion.rs: errors when `targets` was already set;
a parenthesized list parses each item as a `Target`; a literal string selects
`DEFAULT_TARGETS` when it is "simd" and errors otherwise. -/
def parse_targets (arg : TargetsArg) (targets : Option (List Target)) :
    Except String (Option (List Target)) :=
  if targets.isSome then
    Except.error "can't specify `targets` multiple times"
  else
    match arg with
    | TargetsArg.paren items =>
      match parse_target_list items with
      | Except.ok ts => Except.ok (some ts)
      | Except.error e => Except.error e
    | TargetsArg.lit s =>
      if s = "simd" then
        Except.ok (some (DEFAULT_TARGETS.map fun x => unwrap_target (Target.parse x)))
      else
        Except.error "expected a list of features or \"simd\""

/-- `parse_attrs` of multiversion.rs: errors when `attrs` was already set, else
stores the parenthesized decoration list. -/
def parse_attrs (arg : List String) (inner_attrs : Option (List String)) :
    Except String (Option (List String)) :=
  if inner_attrs.isSome then
    Except.error "can't specify `attrs` multiple times"
  else
    Except.ok (some arg)

/-- `parse_dispatcher` of multiversion.rs: errors when `dispatcher` was already
set, else matches the literal string against the four lowercase names. -/
def parse_dispatcher (s : String) (dispatcher : Option DispatchMethod) :
    Except String (Option DispatchMethod) :=
  if dispatcher.isSome then
    Except.error "can't specify `dispatcher` multiple times"
  else if s = "default" then Except.ok (some DispatchMethod.Default)
  else if s = "static" then Except.ok (some DispatchMethod.Static)
  else if s = "direct" then Except.ok (some DispatchMethod.Direct)
  else if s = "indirect" then Except.ok (some DispatchMethod.Indirect)
  else Except.error "expected `default`, `static`, `direct`, or `indirect`"

/-- The three mutable option slots of `make_multiversioned_fn` (its lines 115-117). -/
structure ParseState where
  targets : Option (List Target)
  inner_attrs : Option (List String)
  dispatcher : Option DispatchMethod
deriving DecidableEq

/-- All three slots start out unset. -/
def init_state : ParseState :=
  { targets := none, inner_attrs := none, dispatcher := none }

/-- The parser callback of multiversion.rs lines 119-129: dispatch on the
option path, updating the matching slot or rejecting an unrecognized option. -/
def apply_option (st : ParseState) (m : MetaItem) : Except String ParseState :=
  match m with
  | MetaItem.targetsOpt a =>
    match parse_targets a st.targets with
    | Except.ok t => Except.ok { st with targets := t }
    | Except.error e => Except.error e
  | MetaItem.attrsOpt a =>
    match parse_attrs a st.inner_attrs with
    | Except.ok t => Except.ok { st with inner_attrs := t }
    | Except.error e => Except.error e
  | MetaItem.dispatcherOpt s =>
    match parse_dispatcher s st.dispatcher with
    | Except.ok d => Except.ok { st with dispatcher := d }
    | Except.error e => Except.error e
  | MetaItem.unknownOpt => Except.error "unrecognized option"

/-- `parser.parse2(attr)`: the callback runs over the meta items in order, and
the first error aborts the whole parse. -/
def process_options : List MetaItem → ParseState → Except String ParseState
  | [], st => Except.ok st
  | m :: rest, st =>
    match apply_option st m with
    | Except.ok st' => process_options rest st'
    | Except.error e => Except.error e

/-- Whether a meta item is a `targets` option occurrence. -/
def is_targets_item : MetaItem → Bool
  | MetaItem.targetsOpt _ => true
  | _ => false

/-- Whether a meta item is an `attrs` option occurrence. -/
def is_attrs_item : MetaItem → Bool
  | MetaItem.attrsOpt _ => true
  | _ => false

/-- Whether a meta item is a `dispatcher` option occurrence. -/
def is_dispatcher_item : MetaItem → Bool
  | MetaItem.dispatcherOpt _ => true
  | _ => false

/-- `syn::Type`, reduced to what the return-type check distinguishes: an
`impl Trait` type at the head, or any other type constructor (a path type such
as `Option<impl Trait>` keeps its arguments so nesting is expressible). -/
inductive Ty where
  | implTrait : Ty
  | path : String → List Ty → Ty

/-- `syn::ReturnType`: no declared return type, or an arrow followed by a type. -/
inductive ReturnType where
  | default : ReturnType
  | ty : Ty → ReturnType

/-- The check of multiversion.rs lines 106-113: true exactly when the declared
return type exists and its outermost node is `Type::ImplTrait`. -/
def is_impl_trait_output : ReturnType → Bool
  | ReturnType.ty Ty.implTrait => true
  | _ => false

/-- The part of `syn::Signature` the engine reads: the output type. -/
structure Signature where
  output : ReturnType

/-- The part of `syn::ItemFn` the engine reads: its signature. -/
structure ItemFn where
  sig : Signature

/-- The `Dispatcher` value built at multiversion.rs lines 149-155. Its
`ToTokens` expansion lives in dispatcher.rs (absent from src/) and is
infallible, so the token stream is abstracted to the record itself. -/
structure Dispatcher where
  targets : List Target
  func : ItemFn
  inner_attrs : List String
  dispatcher : DispatchMethod

/-- The validation loop of multiversion.rs lines 134-141: reject the list when
any target has no specified features, else pass it through unchanged. -/
def check_targets_features (targets : List Target) : Except String (List Target) :=
  if targets.any (fun t => !t.has_features_specified) then
    Except.error "target must have features specified"
  else
    Except.ok targets

/-- Everything `make_multiversioned_fn` does after the return-type check:
parse the attribute options, require `targets`, validate its features, default
the other two options, and build the `Dispatcher`. -/
def process_after_return_check (attr : List MetaItem) (func : ItemFn) :
    Except String Dispatcher :=
  match process_options attr init_state with
  | Except.error e => Except.error e
  | Except.ok st =>
    match st.targets with
    | none => Except.error "expected `targets`"
    | some targets =>
      match check_targets_features targets with
      | Except.error e => Except.error e
      | Except.ok ts =>
        Except.ok { targets := ts, func := func,
                    inner_attrs := st.inner_attrs.getD [],
                    dispatcher := st.dispatcher.getD DispatchMethod.Default }

/-- `make_multiversioned_fn` of multiversion.rs: first the `impl Trait`
return-type rejection, then option parsing and validation. -/
def make_multiversioned_fn (attr : List MetaItem) (func : ItemFn) :
    Except String Dispatcher :=
  if is_impl_trait_output func.sig.output then
    Except.error "cannot multiversion function with `impl Trait` return type"
  else
    process_after_return_check attr func

/-- A function item with no declared return type. -/
def unit_fn : ItemFn :=
  { sig := { output := ReturnType.default } }

/-- A function item declared with an `impl Trait` return type. -/
def impl_fn : ItemFn :=
  { sig := { output := ReturnType.ty Ty.implTrait } }

/-- A function item whose return type is `Option<impl Trait>`: `impl Trait`
nested inside another type constructor, not at the head. -/
def opt_impl_fn : ItemFn :=
  { sig := { output := ReturnType.ty (Ty.path "Option" [Ty.implTrait]) } }

/-- The unit separator `'\x1f'` on which `CARGO_ENCODED_RUSTFLAGS` is split. -/
def unit_separator : Char := Char.ofNat 31

/-- Rust `str::strip_prefix(p)`: the remainder after `p` when `p` leads, else none. -/
def strip_pref (p s : List Char) : Option (List Char) :=
  if startsWithL s p then some (s.drop p.length) else none

/-- The closure of build.rs lines 6-11: strip `target-feature=` (or else
`-Ctarget-feature=`) from the flag, split the remainder on commas, and look for
an entry starting with `+retpoline`; a flag with neither leading form yields false. -/
def flag_enables_retpoline (flag : List Char) : Bool :=
  match strip_pref "target-feature=".data flag with
  | some features =>
    (splitOnChar ',' features).any fun f => startsWithL f "+retpoline".data
  | none =>
    match strip_pref "-Ctarget-feature=".data flag with
    | some features =>
      (splitOnChar ',' features).any fun f => startsWithL f "+retpoline".data
    | none => false

/-- `retpolines_enabled` of build.rs: some flag of the unit-separated
`CARGO_ENCODED_RUSTFLAGS` value enables a retpoline feature. -/
def retpolines_enabled (rustflags : List Char) : Bool :=
  (splitOnChar unit_separator rustflags).any flag_enables_retpoline

/-- `main` of build.rs as the list of lines it prints, in order: the
`rustc-cfg=retpoline` line exactly when retpolines are enabled, then the two
unconditional lines. -/
def build_main (rustflags : List Char) : List String :=
  (if retpolines_enabled rustflags then ["cargo::rustc-cfg=retpoline"] else []) ++
  ["cargo::rustc-check-cfg=cfg(retpoline)", "cargo::rerun-if-changed=build.rs"]

/-! Supporting lemmas about the option-parsing loop. -/

/-- A successful `parse_targets` always leaves the `targets` slot filled. -/
theorem parse_targets_ok_isSome (a : TargetsArg) (o t : Option (List Target))
    (h : parse_targets a o = Except.ok t) : t.isSome = true := by
  cases o with
  | some v => simp [parse_targets] at h
  | none =>
    cases a with
    | paren items =>
      cases hm : parse_target_list items with
      | ok ts => simp [parse_targets, hm] at h; subst h; rfl
      | error e => simp [parse_targets, hm] at h
    | lit s =>
      by_cases hs : s = "simd"
      · simp [parse_targets, hs] at h; subst h; rfl
      · simp [parse_targets, hs] at h

/-- A successful `parse_attrs` always leaves the `attrs` slot filled. -/
theorem parse_attrs_ok_isSome (a : List String) (o t : Option (List String))
    (h : parse_attrs a o = Except.ok t) : t.isSome = true := by
  cases o with
  | some v => simp [parse_attrs] at h
  | none => simp [parse_attrs] at h; subst h; rfl

/-- A successful `parse_dispatcher` always leaves the `dispatcher` slot filled. -/
theorem parse_dispatcher_ok_isSome (s : String) (o t : Option DispatchMethod)
    (h : parse_dispatcher s o = Except.ok t) : t.isSome = true := by
  cases o with
  | some v => simp [parse_dispatcher] at h
  | none =>
    simp only [parse_dispatcher, Option.isSome_none, Bool.false_eq_true, if_false] at h
    split_ifs at h <;> simp at h <;> subst h <;> rfl

/-- No option step empties a filled `targets` slot. -/
theorem apply_pres_targets (st : ParseState) (m : MetaItem) (st' : ParseState)
    (h : apply_option st m = Except.ok st') (hs : st.targets.isSome = true) :
    st'.targets.isSome = true := by
  cases m with
  | targetsOpt a => simp [apply_option, parse_targets, hs] at h
  | attrsOpt a =>
    cases hp : parse_attrs a st.inner_attrs with
    | error e => simp [apply_option, hp] at h
    | ok t => simp [apply_option, hp] at h; subst h; simpa using hs
  | dispatcherOpt s =>
    cases hp : parse_dispatcher s st.dispatcher with
    | error e => simp [apply_option, hp] at h
    | ok t => simp [apply_option, hp] at h; subst h; simpa using hs
  | unknownOpt => simp [apply_option] at h

/-- No option step empties a filled `attrs` slot. -/
theorem apply_pres_attrs (st : ParseState) (m : MetaItem) (st' : ParseState)
    (h : apply_option st m = Except.ok st') (hs : st.inner_attrs.isSome = true) :
    st'.inner_attrs.isSome = true := by
  cases m with
  | attrsOpt a => simp [apply_option, parse_attrs, hs] at h
  | targetsOpt a =>
    cases hp : parse_targets a st.targets with
    | error e => simp [apply_option, hp] at h
    | ok t => simp [apply_option, hp] at h; subst h; simpa using hs
  | dispatcherOpt s =>
    cases hp : parse_dispatcher s st.dispatcher with
    | error e => simp [apply_option, hp] at h
    | ok t => simp [apply_option, hp] at h; subst h; simpa using hs
  | unknownOpt => simp [apply_option] at h

/-- No option step empties a filled `dispatcher` slot. -/
theorem apply_pres_dispatcher (st : ParseState) (m : MetaItem) (st' : ParseState)
    (h : apply_option st m = Except.ok st') (hs : st.dispatcher.isSome = true) :
    st'.dispatcher.isSome = true := by
  cases m with
  | dispatcherOpt s => simp [apply_option, parse_dispatcher, hs] at h
  | targetsOpt a =>
    cases hp : parse_targets a st.targets with
    | error e => simp [apply_option, hp] at h
    | ok t => simp [apply_option, hp] at h; subst h; simpa using hs
  | attrsOpt a =>
    cases hp : parse_attrs a st.inner_attrs with
    | error e => simp [apply_option, hp] at h
    | ok t => simp [apply_option, hp] at h; subst h; simpa using hs
  | unknownOpt => simp [apply_option] at h

/-- A successful `targets` option step fills the `targets` slot. -/
theorem apply_set_targets (st : ParseState) (m : MetaItem) (st' : ParseState)
    (hk : is_targets_item m = true) (h : apply_option st m = Except.ok st') :
    st'.targets.isSome = true := by
  cases m with
  | targetsOpt a =>
    cases hp : parse_targets a st.targets with
    | error e => simp [apply_option, hp] at h
    | ok t =>
      simp [apply_option, hp] at h
      have ht := parse_targets_ok_isSome a st.targets t hp
      subst h; simpa using ht
  | attrsOpt a => simp [is_targets_item] at hk
  | dispatcherOpt s => simp [is_targets_item] at hk
  | unknownOpt => simp [is_targets_item] at hk

/-- A successful `attrs` option step fills the `attrs` slot. -/
theorem apply_set_attrs (st : ParseState) (m : MetaItem) (st' : ParseState)
    (hk : is_attrs_item m = true) (h : apply_option st m = Except.ok st') :
    st'.inner_attrs.isSome = true := by
  cases m with
  | attrsOpt a =>
    cases hp : parse_attrs a st.inner_attrs with
    | error e => simp [apply_option, hp] at h
    | ok t =>
      simp [apply_option, hp] at h
      have ht := parse_attrs_ok_isSome a st.inner_attrs t hp
      subst h; simpa using ht
  | targetsOpt a => simp [is_attrs_item] at hk
  | dispatcherOpt s => simp [is_attrs_item] at hk
  | unknownOpt => simp [is_attrs_item] at hk

/-- A successful `dispatcher` option step fills the `dispatcher` slot. -/
theorem apply_set_dispatcher (st : ParseState) (m : MetaItem) (st' : ParseState)
    (hk : is_dispatcher_item m = true) (h : apply_option st m = Except.ok st') :
    st'.dispatcher.isSome = true := by
  cases m with
  | dispatcherOpt s =>
    cases hp : parse_dispatcher s st.dispatcher with
    | error e => simp [apply_option, hp] at h
    | ok t =>
      simp [apply_option, hp] at h
      have ht := parse_dispatcher_ok_isSome s st.dispatcher t hp
      subst h; simpa using ht
  | targetsOpt a => simp [is_dispatcher_item] at hk
  | attrsOpt a => simp [is_dispatcher_item] at hk
  | unknownOpt => simp [is_dispatcher_item] at hk

/-- A `targets` option step fails while the `targets` slot is already filled. -/
theorem apply_targets_err (st : ParseState) (m : MetaItem)
    (hk : is_targets_item m = true) (hs : st.targets.isSome = true) :
    (apply_option st m).isOk = false := by
  cases m with
  | targetsOpt a => simp [apply_option, parse_targets, hs, Except.isOk, Except.toBool]
  | attrsOpt a => simp [is_targets_item] at hk
  | dispatcherOpt s => simp [is_targets_item] at hk
  | unknownOpt => simp [is_targets_item] at hk

/-- An `attrs` option step fails while the `attrs` slot is already filled. -/
theorem apply_attrs_err (st : ParseState) (m : MetaItem)
    (hk : is_attrs_item m = true) (hs : st.inner_attrs.isSome = true) :
    (apply_option st m).isOk = false := by
  cases m with
  | attrsOpt a => simp [apply_option, parse_attrs, hs, Except.isOk, Except.toBool]
  | targetsOpt a => simp [is_attrs_item] at hk
  | dispatcherOpt s => simp [is_attrs_item] at hk
  | unknownOpt => simp [is_attrs_item] at hk

/-- A `dispatcher` option step fails while the `dispatcher` slot is already filled. -/
theorem apply_dispatcher_err (st : ParseState) (m : MetaItem)
    (hk : is_dispatcher_item m = true) (hs : st.dispatcher.isSome = true) :
    (apply_option st m).isOk = false := by
  cases m with
  | dispatcherOpt s => simp [apply_option, parse_dispatcher, hs, Except.isOk, Except.toBool]
  | targetsOpt a => simp [is_dispatcher_item] at hk
  | attrsOpt a => simp [is_dispatcher_item] at hk
  | unknownOpt => simp [is_dispatcher_item] at hk

/-- A step that is not a `targets` option leaves the `targets` slot unchanged. -/
theorem apply_nontargets_eq (st : ParseState) (m : MetaItem) (st' : ParseState)
    (hk : is_targets_item m = false) (h : apply_option st m = Except.ok st') :
    st'.targets = st.targets := by
  cases m with
  | targetsOpt a => simp [is_targets_item] at hk
  | attrsOpt a =>
    cases hp : parse_attrs a st.inner_attrs with
    | error e => simp [apply_option, hp] at h
    | ok t => simp [apply_option, hp] at h; subst h; rfl
  | dispatcherOpt s =>
    cases hp : parse_dispatcher s st.dispatcher with
    | error e => simp [apply_option, hp] at h
    | ok t => simp [apply_option, hp] at h; subst h; rfl
  | unknownOpt => simp [apply_option] at h

/-- Once a slot that errors on its option kind is filled, one more occurrence
of that kind makes the whole option parse fail. -/
theorem process_some_error (get : ParseState → Bool) (kind : MetaItem → Bool)
    (pres : ∀ st m st', apply_option st m = Except.ok st' → get st = true → get st' = true)
    (errs : ∀ st m, kind m = true → get st = true → (apply_option st m).isOk = false) :
    ∀ (items : List MetaItem) (st : ParseState), get st = true → 0 < items.countP kind →
      (process_options items st).isOk = false := by
  intro items
  induction items with
  | nil => intro st _ hc; simp at hc
  | cons m rest ih =>
    intro st hg hc
    cases ha : apply_option st m with
    | error e => simp [process_options, ha, Except.isOk, Except.toBool]
    | ok st' =>
      by_cases hk : kind m = true
      · have he := errs st m hk hg
        rw [ha] at he
        simp [Except.isOk, Except.toBool] at he
      · have hg' := pres st m st' ha hg
        have hc' : 0 < rest.countP kind := by
          rw [List.countP_cons] at hc
          simpa [hk] using hc
        simpa [process_options, ha] using ih st' hg' hc'

/-- Two occurrences of an option kind whose slot-filling step errs on repeats
make the whole option parse fail, from any starting state. -/
theorem process_dup_error (get : ParseState → Bool) (kind : MetaItem → Bool)
    (pres : ∀ st m st', apply_option st m = Except.ok st' → get st = true → get st' = true)
    (errs : ∀ st m, kind m = true → get st = true → (apply_option st m).isOk = false)
    (sets : ∀ st m st', kind m = true → apply_option st m = Except.ok st' → get st' = true) :
    ∀ (items : List MetaItem) (st : ParseState), 2 ≤ items.countP kind →
      (process_options items st).isOk = false := by
  intro items
  induction items with
  | nil => intro st hc; simp at hc
  | cons m rest ih =>
    intro st hc
    cases ha : apply_option st m with
    | error e => simp [process_options, ha, Except.isOk, Except.toBool]
    | ok st' =>
      by_cases hk : kind m = true
      · have hg' := sets st m st' hk ha
        have hc' : 0 < rest.countP kind := by
          rw [List.countP_cons] at hc
          simp [hk] at hc
          exact List.countP_pos_iff.mpr hc
        simpa [process_options, ha] using
          process_some_error get kind pres errs rest st' hg' hc'
      · have hc' : 2 ≤ rest.countP kind := by
          rw [List.countP_cons] at hc
          simpa [hk] using hc
        simpa [process_options, ha] using ih st' hc'

/-- With no `targets` option among the items, a successful parse leaves the
`targets` slot exactly as it started. -/
theorem process_zero_targets (items : List MetaItem) :
    ∀ (st st' : ParseState), items.countP is_targets_item = 0 →
      process_options items st = Except.ok st' → st'.targets = st.targets := by
  induction items with
  | nil =>
    intro st st' _ h
    simp [process_options] at h
    subst h; rfl
  | cons m rest ih =>
    intro st st' hc hp
    rw [List.countP_cons] at hc
    have hk : is_targets_item m = false := by
      cases hkk : is_targets_item m with
      | false => rfl
      | true => rw [hkk] at hc; simp at hc
    cases ha : apply_option st m with
    | error e => simp [process_options, ha] at hp
    | ok stm =>
      simp only [process_options, ha] at hp
      have h1 : rest.countP is_targets_item = 0 := by simpa [hk] using hc
      have h2 := ih stm st' h1 hp
      rw [h2, apply_nontargets_eq st m stm hk ha]

/-- A failing option parse makes `make_multiversioned_fn` fail, whatever the
function item is. -/
theorem make_err_of_process_err (attr : List MetaItem) (func : ItemFn)
    (h : (process_options attr init_state).isOk = false) :
    (make_multiversioned_fn attr func).isOk = false := by
  by_cases hi : is_impl_trait_output func.sig.output = true
  · simp [make_multiversioned_fn, hi, Except.isOk, Except.toBool]
  · cases hp : process_options attr init_state with
    | error e =>
      simp [make_multiversioned_fn, hi, process_after_return_check, hp,
        Except.isOk, Except.toBool]
    | ok st => rw [hp] at h; simp [Except.isOk, Except.toBool] at h

/-! Supporting lemmas about the build-script string scanning. -/

/-- `startsWithL s p` holds exactly when `s` is `p` followed by some remainder. -/
theorem startsWithL_iff (p : List Char) : ∀ s, startsWithL s p = true ↔ ∃ r, s = p ++ r := by
  induction p with
  | nil => intro s; simp [startsWithL]
  | cons p ps ih =>
    intro s
    cases s with
    | nil => simp [startsWithL]
    | cons c s =>
      simp only [startsWithL, Bool.and_eq_true, beq_iff_eq, ih, List.cons_append,
        List.cons.injEq]
      constructor
      · rintro ⟨rfl, r, rfl⟩; exact ⟨r, rfl, rfl⟩
      · rintro ⟨r, rfl, rfl⟩; exact ⟨rfl, r, rfl⟩

/-- Stripping `p` yields `r` exactly when `s` is `p ++ r`. -/
theorem strip_pref_some_iff (p s r : List Char) :
    strip_pref p s = some r ↔ s = p ++ r := by
  unfold strip_pref
  by_cases h : startsWithL s p = true
  · rw [if_pos h]
    obtain ⟨q, rfl⟩ := (startsWithL_iff p s).mp h
    rw [List.drop_left]
    constructor
    · rintro h2; injection h2 with h2; rw [h2]
    · intro h2
      have h3 := List.append_cancel_left h2
      rw [h3]
  · rw [if_neg h]
    constructor
    · intro h2; cases h2
    · intro h2
      exact absurd ((startsWithL_iff p s).mpr ⟨r, h2⟩) h

/-- When stripping `p` fails, `s` extends no `p`-headed string. -/
theorem strip_pref_none (p s : List Char) (h : strip_pref p s = none) :
    ∀ r, s ≠ p ++ r := by
  intro r heq
  have h2 := (strip_pref_some_iff p s r).mpr heq
  rw [h] at h2
  cases h2

/-- A `target-feature=`-headed flag starts with `t`. -/
theorem tf_head (a : List Char) :
    ("target-feature=".data ++ a).head? = some 't' := rfl

/-- A `-Ctarget-feature=`-headed flag starts with `-`. -/
theorem ctf_head (b : List Char) :
    ("-Ctarget-feature=".data ++ b).head? = some '-' := rfl

/-- The two recognized flag spellings never coincide (their first characters differ). -/
theorem tf_ne_ctf (a b : List Char) :
    "target-feature=".data ++ a ≠ "-Ctarget-feature=".data ++ b := by
  intro h
  have h0 := tf_head a
  rw [h, ctf_head] at h0
  injection h0 with h0
  exact absurd h0 (by decide)

/-- The comma scan finds a `+retpoline`-headed entry exactly when one exists. -/
theorem flag_any_iff (features : List Char) :
    ((splitOnChar ',' features).any fun f => startsWithL f "+retpoline".data) = true ↔
      ∃ f ∈ splitOnChar ',' features, ∃ t, f = "+retpoline".data ++ t := by
  rw [List.any_eq_true]
  constructor
  · rintro ⟨f, hm, hs⟩
    obtain ⟨t, rfl⟩ := (startsWithL_iff _ f).mp hs
    exact ⟨_, hm, t, rfl⟩
  · rintro ⟨f, hm, t, rfl⟩
    exact ⟨_, hm, (startsWithL_iff _ _).mpr ⟨t, rfl⟩⟩

/-- One flag enables retpolines exactly when it has one of the two
`target-feature` spellings and its comma-separated feature list has an entry
starting with `+retpoline`. -/
theorem flag_enables_retpoline_iff (flag : List Char) :
    flag_enables_retpoline flag = true ↔
      ∃ rest, (flag = "target-feature=".data ++ rest ∨
               flag = "-Ctarget-feature=".data ++ rest) ∧
        ∃ f ∈ splitOnChar ',' rest, ∃ t, f = "+retpoline".data ++ t := by
  unfold flag_enables_retpoline
  cases h1 : strip_pref "target-feature=".data flag with
  | some features =>
    have hf : flag = "target-feature=".data ++ features :=
      (strip_pref_some_iff _ _ _).mp h1
    rw [flag_any_iff]
    constructor
    · rintro ⟨f, hm, t, rfl⟩
      exact ⟨features, Or.inl hf, _, hm, t, rfl⟩
    · rintro ⟨rest, hor, f, hm, t, rfl⟩
      rcases hor with hor | hor
      · have he : features = rest := List.append_cancel_left (hor ▸ hf.symm)
        subst he
        exact ⟨_, hm, t, rfl⟩
      · exact absurd (hor ▸ hf).symm (tf_ne_ctf features rest)
  | none =>
    cases h2 : strip_pref "-Ctarget-feature=".data flag with
    | some features =>
      have hf : flag = "-Ctarget-feature=".data ++ features :=
        (strip_pref_some_iff _ _ _).mp h2
      rw [flag_any_iff]
      constructor
      · rintro ⟨f, hm, t, rfl⟩
        exact ⟨features, Or.inr hf, _, hm, t, rfl⟩
      · rintro ⟨rest, hor, f, hm, t, rfl⟩
        rcases hor with hor | hor
        · exact absurd (hor ▸ hf) (tf_ne_ctf rest features)
        · have he : features = rest := List.append_cancel_left (hor ▸ hf.symm)
          subst he
          exact ⟨_, hm, t, rfl⟩
    | none =>
      simp only [Bool.false_eq_true, false_iff]
      rintro ⟨rest, hor, -⟩
      rcases hor with hor | hor
      · exact strip_pref_none _ _ h1 rest hor
      · exact strip_pref_none _ _ h2 rest hor

/-! The claims. -/

/-- C1, counterexample: an explicitly supplied empty target list is not an
error — `make_multiversioned_fn` accepts `targets()` and returns a plan with
an empty Target List, so the claimed ValidationError does not occur. -/
theorem c1_empty_targets_cex :
    make_multiversioned_fn [MetaItem.targetsOpt (TargetsArg.paren [])] unit_fn =
      Except.ok { targets := [], func := unit_fn, inner_attrs := [],
                  dispatcher := DispatchMethod.Default } := rfl

/-- C1, amended: for every function item that passes the return-type check, an
invocation whose `targets` option is a parenthesized list of zero targets is
accepted: the per-target feature validation passes vacuously and
`make_multiversioned_fn` yields a plan with an empty Target List. -/
theorem c1_empty_targets_accepted (func : ItemFn)
    (h : is_impl_trait_output func.sig.output = false) :
    make_multiversioned_fn [MetaItem.targetsOpt (TargetsArg.paren [])] func =
      Except.ok { targets := [], func := func, inner_attrs := [],
                  dispatcher := DispatchMethod.Default } := by
  simp [make_multiversioned_fn, h, process_after_return_check, process_options,
    apply_option, parse_targets, parse_target_list, init_state, check_targets_features]

/-- C1, witness: the amended statement at the concrete no-return-type function. -/
theorem c1_empty_targets_witness :
    make_multiversioned_fn [MetaItem.targetsOpt (TargetsArg.paren [])] unit_fn =
      Except.ok { targets := [], func := unit_fn, inner_attrs := [],
                  dispatcher := DispatchMethod.Default } :=
  c1_empty_targets_accepted unit_fn rfl

/-- C2, counterexample: the code accepts the lowercase name "static" and
rejects the capitalized "Static", so parsing does not succeed exactly on the
capitalized strategy names `Static`, `Direct`, `Indirect`, `Default` that the
claim enumerates — the claimed equivalence fails at the input "Static". -/
theorem c2_dispatcher_names_cex :
    ((parse_dispatcher "static" none).isOk = true) ∧
    ¬ (((parse_dispatcher "Static" none).isOk = true) ↔
       ("Static" = "Static" ∨ "Static" = "Direct" ∨ "Static" = "Indirect" ∨
        "Static" = "Default")) := by
  decide

/-- C2, amended: for every string s supplied as the value of the `dispatcher`
option (not yet specified before), parsing succeeds if and only if s is one of
the four lowercase strategy names `default`, `static`, `direct`, `indirect`,
compared case-sensitively; any other string is an error. -/
theorem c2_dispatcher_lowercase (s : String) :
    (parse_dispatcher s none).isOk = true ↔
      (s = "default" ∨ s = "static" ∨ s = "direct" ∨ s = "indirect") := by
  simp only [parse_dispatcher, Option.isSome_none, Bool.false_eq_true, if_false]
  split_ifs with h1 h2 h3 h4 <;> simp_all [Except.isOk, Except.toBool]

/-- C3: a function declared with an `impl Trait` return type is rejected with
the descriptive error, whatever the attribute token stream holds — the
rejection precedes all attribute parsing and Target List processing, so the
resulting error is the return-type one even for attributes that would
themselves fail to parse. -/
theorem c3_impl_trait_rejected_first (attr : List MetaItem) (func : ItemFn)
    (h : func.sig.output = ReturnType.ty Ty.implTrait) :
    make_multiversioned_fn attr func =
      Except.error "cannot multiversion function with `impl Trait` return type" := by
  simp [make_multiversioned_fn, is_impl_trait_output, h]

/-- C3, witness: the rejection at a concrete `impl Trait` function, under an
attribute holding an unrecognized option that would otherwise error differently. -/
theorem c3_impl_trait_witness :
    make_multiversioned_fn [MetaItem.unknownOpt] impl_fn =
      Except.error "cannot multiversion function with `impl Trait` return type" :=
  c3_impl_trait_rejected_first [MetaItem.unknownOpt] impl_fn rfl

/-- C4: the feature gate of `make_multiversioned_fn` rejects a Target List in
which some target has zero specified features with the validation error, and
passes through unchanged every list whose targets all have features specified. -/
theorem c4_features_gate (ts : List Target) :
    ((∃ t ∈ ts, t.has_features_specified = false) →
      check_targets_features ts = Except.error "target must have features specified") ∧
    ((∀ t ∈ ts, t.has_features_specified = true) →
      check_targets_features ts = Except.ok ts) := by
  constructor
  · rintro ⟨t, ht, hf⟩
    have hany : ts.any (fun t => !t.has_features_specified) = true :=
      List.any_eq_true.mpr ⟨t, ht, by simp [hf]⟩
    simp [check_targets_features, hany]
  · intro hall
    have hany : ts.any (fun t => !t.has_features_specified) = false := by
      rw [List.any_eq_false]
      intro t ht
      simp [hall t ht]
    simp [check_targets_features, hany]

/-- C5: expanding the preset `targets = "simd"` yields the fixed default
table — a six-entry list with the two 64-bit x86 targets most-capable first,
then the three 32-bit x86 targets, then the 64-bit ARM target; as the value of
a pure function it is identical across repeated invocations. -/
theorem c5_preset_expansion :
    parse_targets (TargetsArg.lit "simd") none = Except.ok (some default_target_table) ∧
    default_target_table =
      [ { architecture := "x86_64", features := ["avx2", "fma"] },
        { architecture := "x86_64", features := ["sse4.2"] },
        { architecture := "x86", features := ["avx2", "fma"] },
        { architecture := "x86", features := ["sse4.2"] },
        { architecture := "x86", features := ["sse2"] },
        { architecture := "aarch64", features := ["neon"] } ] :=
  ⟨rfl, rfl⟩

/-- C6: an attribute token stream in which `targets`, `attrs` or `dispatcher`
occurs at least twice makes `make_multiversioned_fn` fail, for every function
item. -/
theorem c6_duplicate_option_rejected (attr : List MetaItem) (func : ItemFn)
    (h : 2 ≤ attr.countP is_targets_item ∨ 2 ≤ attr.countP is_attrs_item ∨
         2 ≤ attr.countP is_dispatcher_item) :
    (make_multiversioned_fn attr func).isOk = false := by
  apply make_err_of_process_err
  rcases h with h | h | h
  · exact process_dup_error (fun st => st.targets.isSome) is_targets_item
      apply_pres_targets apply_targets_err apply_set_targets attr init_state h
  · exact process_dup_error (fun st => st.inner_attrs.isSome) is_attrs_item
      apply_pres_attrs apply_attrs_err apply_set_attrs attr init_state h
  · exact process_dup_error (fun st => st.dispatcher.isSome) is_dispatcher_item
      apply_pres_dispatcher apply_dispatcher_err apply_set_dispatcher attr init_state h

/-- C6, witness: a concrete attribute naming `targets` twice is rejected. -/
theorem c6_duplicate_witness :
    (make_multiversioned_fn
      [MetaItem.targetsOpt (TargetsArg.lit "simd"),
       MetaItem.targetsOpt (TargetsArg.lit "simd")] unit_fn).isOk = false :=
  c6_duplicate_option_rejected
    [MetaItem.targetsOpt (TargetsArg.lit "simd"),
     MetaItem.targetsOpt (TargetsArg.lit "simd")] unit_fn (Or.inl (by decide))

/-- C7: the `targets` option is required — an attribute token stream with no
`targets` occurrence makes `make_multiversioned_fn` fail rather than produce a
dispatch plan, for every function item. -/
theorem c7_targets_required (attr : List MetaItem) (func : ItemFn)
    (h : attr.countP is_targets_item = 0) :
    (make_multiversioned_fn attr func).isOk = false := by
  by_cases hi : is_impl_trait_output func.sig.output = true
  · simp [make_multiversioned_fn, hi, Except.isOk, Except.toBool]
  · cases hp : process_options attr init_state with
    | error e =>
      simp [make_multiversioned_fn, hi, process_after_return_check, hp,
        Except.isOk, Except.toBool]
    | ok st =>
      have ht : st.targets = none := by
        have h2 := process_zero_targets attr init_state st h hp
        simpa [init_state] using h2
      simp [make_multiversioned_fn, hi, process_after_return_check, hp, ht,
        Except.isOk, Except.toBool]

/-- C7, witness: the empty attribute is rejected. -/
theorem c7_targets_witness :
    (make_multiversioned_fn [] unit_fn).isOk = false :=
  c7_targets_required [] unit_fn rfl

/-- C8: a non-parenthesized `targets` string that is not "simd" is a
validation error, and "simd" selects the fixed default target table. -/
theorem c8_preset_name_validation (s : String) :
    (s ≠ "simd" →
      parse_targets (TargetsArg.lit s) none =
        Except.error "expected a list of features or \"simd\"") ∧
    (s = "simd" →
      parse_targets (TargetsArg.lit s) none = Except.ok (some default_target_table)) := by
  constructor
  · intro h; simp [parse_targets, h]
  · intro h; subst h; rfl

/-- C9: the opaque-return-type rejection is shallow — the check is true exactly
when the whole declared return type is `impl Trait`; it is false for a missing
return type and for `Option<impl Trait>`, where `impl Trait` is merely nested;
and whenever the check is false, `make_multiversioned_fn` is exactly the
post-check processing, so that check rejects nothing. -/
theorem c9_impl_trait_check_shallow :
    (∀ rt : ReturnType, is_impl_trait_output rt = true ↔ rt = ReturnType.ty Ty.implTrait) ∧
    is_impl_trait_output ReturnType.default = false ∧
    is_impl_trait_output (ReturnType.ty (Ty.path "Option" [Ty.implTrait])) = false ∧
    (∀ (attr : List MetaItem) (func : ItemFn),
      is_impl_trait_output func.sig.output = false →
      make_multiversioned_fn attr func = process_after_return_check attr func) := by
  refine ⟨?_, rfl, rfl, ?_⟩
  · intro rt
    cases rt with
    | default => simp [is_impl_trait_output]
    | ty t => cases t <;> simp [is_impl_trait_output]
  · intro attr func h
    simp [make_multiversioned_fn, h]

/-- C10: the build script emits the `retpoline` cfg line exactly when the
`CARGO_ENCODED_RUSTFLAGS` value, split on the unit separator, has a flag of the
form `target-feature=...` or `-Ctarget-feature=...` whose comma-separated list
has an entry starting with `+retpoline`; disabled features (`-retpoline...`)
and other flags never activate it. -/
theorem c10_retpoline_cfg (rustflags : List Char) :
    ("cargo::rustc-cfg=retpoline" ∈ build_main rustflags) ↔
      ∃ flag ∈ splitOnChar unit_separator rustflags,
        ∃ rest, (flag = "target-feature=".data ++ rest ∨
                 flag = "-Ctarget-feature=".data ++ rest) ∧
          ∃ f ∈ splitOnChar ',' rest, ∃ t, f = "+retpoline".data ++ t := by
  have hmem : ("cargo::rustc-cfg=retpoline" ∈ build_main rustflags) ↔
      retpolines_enabled rustflags = true := by
    unfold build_main
    cases h : retpolines_enabled rustflags <;> simp [h]
  rw [hmem]
  unfold retpolines_enabled
  rw [List.any_eq_true]
  constructor
  · rintro ⟨flag, hm, hen⟩
    exact ⟨flag, hm, (flag_enables_retpoline_iff flag).mp hen⟩
  · rintro ⟨flag, hm, hspec⟩
    exact ⟨flag, hm, (flag_enables_retpoline_iff flag).mpr hspec⟩

end Multiversion
